import Mathlib

/-!
Shallow embedding of the BER pretty-printer (src/ber/print.rs) and proofs of
the specified rendering properties.

The object-tree data model (BerObject, BerObjectContent, headers) is an
external boundary of the repository; it is embedded here only as deeply as the
pretty-printer inspects it.  Externally owned textual renderings (the hex-dump
helper, the default Debug form of a BerObject, the Debug form of OID values,
timestamps and class names) are modelled as opaque string data carried by the
tree or supplied as parameters, since their exact byte-to-text mapping is owned
by the boundary, not by this repository.
-/

/-- Display flags of the pretty-printer; the source defines exactly one flag,
ShowHeader (enum PrettyPrinterFlag in src/ber/print.rs). -/
inductive PrettyPrinterFlag where
  | ShowHeader
deriving DecidableEq

/-- Header metadata of a BER object, as far as the pretty-printer reads it:
a classification (carried here as its already-rendered Debug string, since the
printer only ever formats it), the constructed flag, and the numeric tag. -/
structure Header where
  cls : String
  constructed : Bool
  tag : Nat
deriving DecidableEq

mutual
/-- A BER object: a header plus a content variant (external data model). -/
inductive BerObject where
  | mk (header : Header) (content : BerObjectContent)

/-- Content variants of a BER object, mirroring the arms matched by the
Debug implementation for PrettyBer.  Byte slices are lists of naturals;
externally rendered values (OID text, timestamps, class names) are carried as
the strings the boundary would produce for them. -/
inductive BerObjectContent where
  | EndOfContent
  | Boolean (b : Bool)
  | Integer (i : List Nat)
  | Enum (i : Nat)
  | OID (v : String)
  | RelativeOID (v : String)
  | Null
  | OctetString (v : List Nat)
  | BitString (u : Nat) (data : List Nat)
  | GeneralizedTime (time : String)
  | UTCTime (time : String)
  | VisibleString (s : String)
  | GeneralString (s : String)
  | GraphicString (s : String)
  | PrintableString (s : String)
  | NumericString (s : String)
  | UTF8String (s : String)
  | IA5String (s : String)
  | T61String (s : String)
  | VideotexString (s : String)
  | ObjectDescriptor (s : String)
  | BmpString (s : String)
  | UniversalString (s : List Nat)
  | Optional (o : BerOption)
  | Tagged (cls : String) (tag : Nat) (obj : BerObject)
  | Set (v : BerObjectList)
  | Sequence (v : BerObjectList)
  | Unknown (cls : String) (tag : Nat) (data : List Nat)

/-- Optional sub-object (the Option of the source, inlined into the mutual
inductive family). -/
inductive BerOption where
  | none
  | some (obj : BerObject)

/-- List of sub-objects (the Vec of the source, inlined into the mutual
inductive family). -/
inductive BerObjectList where
  | nil
  | cons (hd : BerObject) (tl : BerObjectList)
end

/-- Header of an object. -/
def BerObject.header : BerObject → Header
  | .mk h _ => h

/-- Content of an object. -/
def BerObject.content : BerObject → BerObjectContent
  | .mk _ c => c

/-- Modelled from the spec: the reserved sequence tag value exposed by the
data-model boundary (Tag.Sequence of the asn1-rs dependency, the universal
SEQUENCE tag number 16), used only for the Set/Sequence label decision. -/
def tagSequence : Nat := 16

/-- The pretty-printer state: the wrapped object, current indentation, the
indentation increment and the display flags (struct PrettyBer). -/
structure PrettyBer where
  obj : BerObject
  indent : Nat
  inc : Nat
  flags : List PrettyPrinterFlag

/-- BerObject.as_pretty: wrap an object with a starting indentation and an
increment; the flag list starts empty. -/
def BerObject.as_pretty (obj : BerObject) (indent increment : Nat) : PrettyBer :=
  { obj := obj, indent := indent, inc := increment, flags := [] }

/-- PrettyBer.set_flag: add a flag unless it is already present. -/
def PrettyBer.set_flag (p : PrettyBer) (flag : PrettyPrinterFlag) : PrettyBer :=
  if flag ∈ p.flags then p else { p with flags := p.flags ++ [flag] }

/-- PrettyBer.next_indent: derive the child printer for a sub-object —
indentation grows by the increment, the increment is kept, the flag list is
copied. -/
def PrettyBer.next_indent (p : PrettyBer) (obj : BerObject) : PrettyBer :=
  { obj := obj, indent := p.indent + p.inc, inc := p.inc, flags := p.flags }

/-- The Rust padded write of a single space with a dynamic minimum width
(format spec "{:1$}" applied to the string " "): the result is the larger of
one and the requested width, all spaces. -/
def padSpace (width : Nat) : String :=
  String.mk (List.replicate (max 1 width) ' ')

/-- The header line fragment emitted when ShowHeader is set:
[c:<classification>, s:<constructed-flag>, t:<tag-number>] followed by a
space.  Modelled from the spec for the two boundary-owned renderings: the
classification Debug text is the string carried by the Header model, and the
external Display of the tag is the tag number. -/
def headerStr (h : Header) : String :=
  "[c:" ++ h.cls ++ ", s:" ++ (if h.constructed then "true" else "false") ++
    ", t:" ++ toString h.tag ++ "] "

/-- chunks_exact(4): the consecutive complete 4-element groups of a list; a
trailing group of fewer than 4 elements is dropped. -/
def chunksExact4 : List Nat → List (Nat × Nat × Nat × Nat)
  | a :: b :: c :: d :: rest => (a, b, c, d) :: chunksExact4 rest
  | _ => []

/-- u32::from_be_bytes on a 4-byte group. -/
def u32FromBeBytes : Nat × Nat × Nat × Nat → Nat
  | (a, b, c, d) => ((a * 256 + b) * 256 + c) * 256 + d

/-- core::char::from_u32: some scalar value when the code point is valid,
none otherwise. -/
def charFromU32 (n : Nat) : Option Char :=
  if Nat.isValidChar n then Option.some (Char.ofNat n) else Option.none

/-- collect::<Option<Vec<char>>>: succeeds with the list of values exactly
when every element is present. -/
def collectOption {α : Type} : List (Option α) → Option (List α)
  | [] => Option.some []
  | Option.none :: _ => Option.none
  | Option.some a :: rest => (collectOption rest).map (fun l => a :: l)

/-- The UTF-32-BE decoding pipeline of print_utf32_string_with_type:
complete 4-byte groups, each read big-endian and converted by char::from_u32,
collected into an all-or-nothing optional list. -/
def utf32Chars (s : List Nat) : Option (List Char) :=
  collectOption ((chunksExact4 s).map (fun g => charFromU32 (u32FromBeBytes g)))

/-- The Debug form of a byte slice (the "{:?}" rendering of a u8 slice):
decimal values, comma-space separated, in square brackets. -/
def sliceDebugFmt (s : List Nat) : String :=
  "[" ++ String.intercalate ", " (s.map toString) ++ "]"

/-- print_utf32_string_with_type: on success the decoded characters quoted
inside the type name, on failure the raw-slice Debug form followed by the
in-band error marker; both outcomes end with a line break. -/
def print_utf32_string_with_type (s : List Nat) (ty : String) : String :=
  match utf32Chars s with
  | Option.some b => ty ++ "(\"" ++ String.mk b ++ "\")" ++ "\n"
  | Option.none => ty ++ "(" ++ sliceDebugFmt s ++ ") <error decoding utf32 string>" ++ "\n"

/-- Modelled from the spec: the externally owned textual renderings this
repository consumes but does not implement — the default (non-pretty) Debug
form of a BerObject used by the Optional arm, the hex-dump Debug rendering of
a byte slice (rusticata-macros HexSlice), and its lower-hex variant used by
the Unknown arm. -/
structure ExternalFmt where
  debugBer : BerObject → String
  hexSlice : List Nat → String
  hexSliceX : List Nat → String

mutual
/-- The Debug implementation for PrettyBer: indentation padding when the
depth is positive, the optional header fragment, then the content dispatch. -/
def renderBer (ext : ExternalFmt) (indent inc : Nat)
    (flags : List PrettyPrinterFlag) : BerObject → String
  | .mk header content =>
    (if indent > 0 then padSpace indent else "") ++
    (if PrettyPrinterFlag.ShowHeader ∈ flags then headerStr header else "") ++
    renderContent ext indent inc flags header content

/-- The content dispatch of the Debug implementation, one arm per variant. -/
def renderContent (ext : ExternalFmt) (indent inc : Nat)
    (flags : List PrettyPrinterFlag) (header : Header) : BerObjectContent → String
  | .EndOfContent => "EndOfContent" ++ "\n"
  | .Boolean b => "Boolean(" ++ (if b then "true" else "false") ++ ")" ++ "\n"
  | .Integer i => "Integer(" ++ ext.hexSlice i ++ ")" ++ "\n"
  | .Enum i => "Enum(" ++ toString i ++ ")" ++ "\n"
  | .OID v => "OID(" ++ v ++ ")" ++ "\n"
  | .RelativeOID v => "RelativeOID(" ++ v ++ ")" ++ "\n"
  | .Null => "Null" ++ "\n"
  | .OctetString v => "OctetString(" ++ ext.hexSlice v ++ ")" ++ "\n"
  | .BitString u data => "BitString(" ++ toString u ++ "," ++ ext.hexSlice data ++ ")" ++ "\n"
  | .GeneralizedTime time => "GeneralizedTime(\"" ++ time ++ "\")" ++ "\n"
  | .UTCTime time => "UTCTime(\"" ++ time ++ "\")" ++ "\n"
  | .VisibleString s => "VisibleString(\"" ++ s ++ "\")" ++ "\n"
  | .GeneralString s => "GeneralString(\"" ++ s ++ "\")" ++ "\n"
  | .GraphicString s => "GraphicString(\"" ++ s ++ "\")" ++ "\n"
  | .PrintableString s => "PrintableString(\"" ++ s ++ "\")" ++ "\n"
  | .NumericString s => "NumericString(\"" ++ s ++ "\")" ++ "\n"
  | .UTF8String s => "UTF8String(\"" ++ s ++ "\")" ++ "\n"
  | .IA5String s => "IA5String(\"" ++ s ++ "\")" ++ "\n"
  | .T61String s => "T61String(" ++ s ++ ")" ++ "\n"
  | .VideotexString s => "VideotexString(" ++ s ++ ")" ++ "\n"
  | .ObjectDescriptor s => "ObjectDescriptor(\"" ++ s ++ "\")" ++ "\n"
  | .BmpString s => "BmpString(\"" ++ s ++ "\")" ++ "\n"
  | .UniversalString s => print_utf32_string_with_type s "UniversalString"
  | .Optional .none => "NONE" ++ "\n"
  | .Optional (.some obj) => "OPTION " ++ ext.debugBer obj ++ "\n"
  | .Tagged cls tag obj =>
    "ContextSpecific [" ++ cls ++ " " ++ toString tag ++ "] \x7b" ++ "\n" ++
    renderBer ext (indent + inc) inc flags obj ++
    (if indent > 0 then padSpace indent else "") ++ "\x7d" ++ "\n"
  | .Set v =>
    (if header.tag = tagSequence then "Sequence" else "Set") ++ "[" ++ "\n" ++
    renderMembers ext indent inc flags v ++
    (if indent > 0 then padSpace indent else "") ++ "]" ++ "\n"
  | .Sequence v =>
    (if header.tag = tagSequence then "Sequence" else "Set") ++ "[" ++ "\n" ++
    renderMembers ext indent inc flags v ++
    (if indent > 0 then padSpace indent else "") ++ "]" ++ "\n"
  | .Unknown cls tag data =>
    "Unknown([" ++ cls ++ " " ++ toString tag ++ "] " ++ ext.hexSliceX data ++ ")" ++ "\n"

/-- The member loop of the Set/Sequence arms: each member is rendered through
the derived child printer, in order. -/
def renderMembers (ext : ExternalFmt) (indent inc : Nat)
    (flags : List PrettyPrinterFlag) : BerObjectList → String
  | .nil => ""
  | .cons o rest =>
    renderBer ext (indent + inc) inc flags o ++ renderMembers ext indent inc flags rest
end

/-- Rendering a PrettyBer value: the textual form its Debug implementation
writes to the sink. -/
def render (ext : ExternalFmt) (p : PrettyBer) : String :=
  renderBer ext p.indent p.inc p.flags p.obj

/-- Number of leading space characters of a character list. -/
def leadingSpaces : List Char → Nat
  | [] => 0
  | c :: rest => if c = ' ' then leadingSpaces rest + 1 else 0

/-- The lines of a character stream: maximal line-break-free segments, the
segment after a trailing line break being dropped when empty. -/
def linesOf : List Char → List (List Char)
  | [] => []
  | c :: rest =>
    if c = '\n' then [] :: linesOf rest
    else
      match linesOf rest with
      | [] => [[c]]
      | l :: ls => (c :: l) :: ls

/-- The pretty-printer states reachable through the public constructors:
as_pretty, set_flag and next_indent. -/
inductive Reachable : PrettyBer → Prop where
  | of_as_pretty (obj : BerObject) (indent increment : Nat) :
      Reachable (obj.as_pretty indent increment)
  | of_set_flag (p : PrettyBer) (f : PrettyPrinterFlag) :
      Reachable p → Reachable (p.set_flag f)
  | of_next_indent (p : PrettyBer) (o : BerObject) :
      Reachable p → Reachable (p.next_indent o)

/-- A concrete instantiation of the external formatting boundary, used by the
closed witness statements. -/
def extEx : ExternalFmt :=
  { debugBer := fun _ => "Obj", hexSlice := fun _ => "hh", hexSliceX := fun _ => "xx" }

/-- A concrete node whose content is the Set variant with no members and whose
header carries the universal Set tag 17. -/
def objC5 : BerObject := .mk ⟨"Universal", true, 17⟩ (.Set .nil)

/-- A concrete printer for objC5 with the ShowHeader flag enabled. -/
def ppC5 : PrettyBer := (objC5.as_pretty 0 2).set_flag .ShowHeader

/-- Unfolding the renderer on an object: padding, optional header, content. -/
theorem renderBer_mk (ext : ExternalFmt) (ind inc : Nat)
    (fl : List PrettyPrinterFlag) (h : Header) (c : BerObjectContent) :
    renderBer ext ind inc fl (.mk h c) =
      (if ind > 0 then padSpace ind else "") ++
      (if PrettyPrinterFlag.ShowHeader ∈ fl then headerStr h else "") ++
      renderContent ext ind inc fl h c := rfl

/-- The guarded padding write emits exactly the current depth in spaces. -/
theorem padIf_data (ind : Nat) :
    (if ind > 0 then padSpace ind else "").data = List.replicate ind ' ' := by
  cases ind with
  | zero => rfl
  | succ n =>
    simp only [Nat.succ_pos, if_pos, padSpace]
    congr 1
    omega

/-- Leading-space count across a replicated-space block. -/
theorem leadingSpaces_replicate_append (n : Nat) (l : List Char) :
    leadingSpaces (List.replicate n ' ' ++ l) = n + leadingSpaces l := by
  induction n with
  | zero => simp [leadingSpaces]
  | succ k ih =>
    have hstep : leadingSpaces (' ' :: (List.replicate k ' ' ++ l)) =
        leadingSpaces (List.replicate k ' ' ++ l) + 1 := by
      simp [leadingSpaces]
    rw [List.replicate_succ, List.cons_append, hstep, ih]
    omega

/-- The header fragment never begins with a space. -/
theorem leadingSpaces_headerStr_append (h : Header) (l : List Char) :
    leadingSpaces ((headerStr h).data ++ l) = 0 := rfl

/-- String concatenation is associative. -/
theorem strAppend_assoc (a b c : String) : a ++ b ++ c = a ++ (b ++ c) := by
  apply String.ext
  simp [String.data_append]

/-- No content arm begins with a space character: every dispatch arm opens
with a fixed literal token. -/
theorem leadingSpaces_renderContent (ext : ExternalFmt) (ind inc : Nat)
    (fl : List PrettyPrinterFlag) (h : Header) (c : BerObjectContent) :
    leadingSpaces (renderContent ext ind inc fl h c).data = 0 := by
  cases c
  case UniversalString s =>
    show leadingSpaces (print_utf32_string_with_type s "UniversalString").data = 0
    unfold print_utf32_string_with_type
    cases utf32Chars s
    · rfl
    · rfl
  case Optional o => cases o <;> rfl
  case Set v =>
    show leadingSpaces (renderContent ext ind inc fl h (.Set v)).data = 0
    by_cases ht : h.tag = tagSequence <;>
      simp only [renderContent, ht, if_pos, if_neg, not_false_iff] <;> rfl
  case Sequence v =>
    show leadingSpaces (renderContent ext ind inc fl h (.Sequence v)).data = 0
    by_cases ht : h.tag = tagSequence <;>
      simp only [renderContent, ht, if_pos, if_neg, not_false_iff] <;> rfl
  all_goals rfl

/-- Every content arm terminates its final token with a line break. -/
theorem renderContent_endsWithNewline (ext : ExternalFmt) (ind inc : Nat)
    (fl : List PrettyPrinterFlag) (h : Header) (c : BerObjectContent) :
    ∃ s, renderContent ext ind inc fl h c = s ++ "\n" := by
  cases c
  case UniversalString s =>
    show ∃ r, print_utf32_string_with_type s "UniversalString" = r ++ "\n"
    unfold print_utf32_string_with_type
    cases utf32Chars s
    · exact ⟨_, rfl⟩
    · exact ⟨_, rfl⟩
  case Optional o => cases o <;> exact ⟨_, rfl⟩
  case Set v =>
    by_cases ht : h.tag = tagSequence <;> exact ⟨_, rfl⟩
  case Sequence v =>
    by_cases ht : h.tag = tagSequence <;> exact ⟨_, rfl⟩
  all_goals exact ⟨_, rfl⟩

/-- Dropping the incomplete trailing group: appending fewer than four extra
elements to a list of length divisible by four does not change its complete
4-groups. -/
theorem chunksExact4_append (s t : List Nat) (hs : s.length % 4 = 0)
    (ht : t.length < 4) : chunksExact4 (s ++ t) = chunksExact4 s := by
  match s with
  | a :: b :: c :: d :: rest =>
    have hs2 : rest.length % 4 = 0 := by simp at hs; omega
    simp only [List.cons_append, chunksExact4, List.append_eq]
    rw [chunksExact4_append rest t hs2 ht]
  | [] =>
    match t, ht with
    | [], _ => rfl
    | [a], _ => rfl
    | [a, b], _ => rfl
    | [a, b, c], _ => rfl
  | [a] => simp at hs
  | [a, b] => simp at hs
  | [a, b, c] => simp at hs
termination_by s.length

/-- When every group is a valid scalar value, the collected conversion
succeeds with exactly the converted characters. -/
theorem collectOption_map_valid (l : List (Nat × Nat × Nat × Nat))
    (hall : ∀ g ∈ l, Nat.isValidChar (u32FromBeBytes g)) :
    collectOption (l.map (fun g => charFromU32 (u32FromBeBytes g))) =
      Option.some (l.map (fun g => Char.ofNat (u32FromBeBytes g))) := by
  induction l with
  | nil => rfl
  | cons g t ih =>
    have hg : Nat.isValidChar (u32FromBeBytes g) := hall g (by simp)
    have ht : ∀ x ∈ t, Nat.isValidChar (u32FromBeBytes x) :=
      fun x hx => hall x (by simp [hx])
    have hhead : charFromU32 (u32FromBeBytes g) =
        Option.some (Char.ofNat (u32FromBeBytes g)) := by
      simp [charFromU32, hg]
    simp [List.map_cons, collectOption, hhead, ih ht]

/-- When some group is not a valid scalar value, the collected conversion
fails. -/
theorem collectOption_map_invalid (l : List (Nat × Nat × Nat × Nat))
    (hex : ∃ g ∈ l, ¬ Nat.isValidChar (u32FromBeBytes g)) :
    collectOption (l.map (fun g => charFromU32 (u32FromBeBytes g))) =
      Option.none := by
  induction l with
  | nil =>
    obtain ⟨g, hg, _⟩ := hex
    simp at hg
  | cons g t ih =>
    obtain ⟨g0, hg0, hv⟩ := hex
    rcases List.mem_cons.mp hg0 with heq | hmem
    · subst heq
      simp [List.map_cons, collectOption, charFromU32, hv]
    · cases hc : charFromU32 (u32FromBeBytes g) <;>
        simp [List.map_cons, collectOption, hc, ih ⟨g0, hmem, hv⟩]

/-- Unfolding the renderer on a UniversalString node down to the UTF-32
printing helper. -/
theorem render_universalString (ext : ExternalFmt) (d i : Nat)
    (fl : List PrettyPrinterFlag) (h : Header) (s : List Nat) :
    render ext ⟨.mk h (.UniversalString s), d, i, fl⟩ =
      (if d > 0 then padSpace d else "") ++
      (if PrettyPrinterFlag.ShowHeader ∈ fl then headerStr h else "") ++
      print_utf32_string_with_type s "UniversalString" := rfl

/-- All groups valid: the UTF-32 pipeline yields the converted characters. -/
theorem utf32Chars_valid (s : List Nat)
    (hall : ∀ g ∈ chunksExact4 s, Nat.isValidChar (u32FromBeBytes g)) :
    utf32Chars s =
      Option.some ((chunksExact4 s).map (fun g => Char.ofNat (u32FromBeBytes g))) :=
  collectOption_map_valid (chunksExact4 s) hall

/-- Some group invalid: the UTF-32 pipeline fails as a whole. -/
theorem utf32Chars_invalid (s : List Nat)
    (hex : ∃ g ∈ chunksExact4 s, ¬ Nat.isValidChar (u32FromBeBytes g)) :
    utf32Chars s = Option.none :=
  collectOption_map_invalid (chunksExact4 s) hex

/-- Claim C1: for a node whose content is the Set variant or the Sequence
variant, the emitted label is Sequence exactly when the header tag equals the
reserved sequence tag value, and Set otherwise; the choice depends only on
the header tag, and the rendering of the two content variants over the same
members is identical. -/
theorem set_sequence_label_from_header_tag (ext : ExternalFmt) (d i : Nat)
    (fl : List PrettyPrinterFlag) (h : Header) (v : BerObjectList) :
    render ext ⟨.mk h (.Set v), d, i, fl⟩ =
      (if d > 0 then padSpace d else "") ++
      (if PrettyPrinterFlag.ShowHeader ∈ fl then headerStr h else "") ++
      ((if h.tag = tagSequence then "Sequence" else "Set") ++ "[" ++ "\n" ++
        renderMembers ext d i fl v ++
        (if d > 0 then padSpace d else "") ++ "]" ++ "\n") ∧
    render ext ⟨.mk h (.Sequence v), d, i, fl⟩ =
      render ext ⟨.mk h (.Set v), d, i, fl⟩ :=
  ⟨rfl, rfl⟩

/-- Claim C2: a UniversalString node is decoded by 4-byte big-endian groups,
the incomplete trailing group being dropped; all groups valid yields the
quoted decoded characters, any invalid group yields the raw-bytes Debug form
with the in-band error marker, and in both cases rendering succeeds. -/
theorem universalString_utf32_decode (ext : ExternalFmt) (d i : Nat)
    (fl : List PrettyPrinterFlag) (h : Header) (s : List Nat) :
    ((∀ g ∈ chunksExact4 s, Nat.isValidChar (u32FromBeBytes g)) →
      render ext ⟨.mk h (.UniversalString s), d, i, fl⟩ =
        (if d > 0 then padSpace d else "") ++
        (if PrettyPrinterFlag.ShowHeader ∈ fl then headerStr h else "") ++
        ("UniversalString" ++ "(\"" ++
          String.mk ((chunksExact4 s).map (fun g => Char.ofNat (u32FromBeBytes g))) ++
          "\")" ++ "\n")) ∧
    ((∃ g ∈ chunksExact4 s, ¬ Nat.isValidChar (u32FromBeBytes g)) →
      render ext ⟨.mk h (.UniversalString s), d, i, fl⟩ =
        (if d > 0 then padSpace d else "") ++
        (if PrettyPrinterFlag.ShowHeader ∈ fl then headerStr h else "") ++
        ("UniversalString" ++ "(" ++ sliceDebugFmt s ++
          ") <error decoding utf32 string>" ++ "\n")) ∧
    (∀ t : List Nat, s.length % 4 = 0 → t.length < 4 →
      chunksExact4 (s ++ t) = chunksExact4 s) := by
  refine ⟨fun hall => ?_, fun hex => ?_, fun t hs ht => chunksExact4_append s t hs ht⟩
  · rw [render_universalString]
    unfold print_utf32_string_with_type
    rw [utf32Chars_valid s hall]
  · rw [render_universalString]
    unfold print_utf32_string_with_type
    rw [utf32Chars_invalid s hex]

/-- Witness for claim C2 at concrete inputs: the byte groups 0 0 0 65 decode
to the quoted character A, and the group 0 0 216 0 (the surrogate 0xD800) is
rejected in favor of the raw-bytes form with the error marker. -/
theorem universalString_utf32_decode_witness :
    render extEx ⟨.mk ⟨"U", false, 28⟩ (.UniversalString [0, 0, 0, 65]), 0, 2, []⟩ =
      "UniversalString(\"A\")\n" ∧
    render extEx ⟨.mk ⟨"U", false, 28⟩ (.UniversalString [0, 0, 216, 0]), 0, 2, []⟩ =
      "UniversalString([0, 0, 216, 0]) <error decoding utf32 string>\n" ∧
    chunksExact4 ([0, 0, 0, 65] ++ [9, 9]) = chunksExact4 [0, 0, 0, 65] :=
  ⟨((universalString_utf32_decode extEx 0 2 [] ⟨"U", false, 28⟩ [0, 0, 0, 65]).1
      (by decide)).trans (by decide),
   ((universalString_utf32_decode extEx 0 2 [] ⟨"U", false, 28⟩ [0, 0, 216, 0]).2.1
      (by decide)).trans (by decide),
   (universalString_utf32_decode extEx 0 2 [] ⟨"U", false, 28⟩ [0, 0, 0, 65]).2.2
      [9, 9] (by decide) (by decide)⟩

/-- Claim C3: the rendered output of any printer begins with exactly as many
space characters as its indentation depth — none when the depth is zero — and
the character following them is never a space. -/
theorem indentation_depth_spaces (ext : ExternalFmt) (p : PrettyBer) :
    leadingSpaces (render ext p).data = p.indent := by
  obtain ⟨obj, ind, inc, fl⟩ := p
  obtain ⟨h, c⟩ := obj
  show leadingSpaces (renderBer ext ind inc fl (.mk h c)).data = ind
  rw [renderBer_mk, String.data_append, String.data_append, padIf_data,
    List.append_assoc, leadingSpaces_replicate_append]
  by_cases hm : PrettyPrinterFlag.ShowHeader ∈ fl
  · rw [if_pos hm, leadingSpaces_headerStr_append]
    omega
  · rw [if_neg hm]
    have hnil : ("" : String).data = [] := rfl
    rw [hnil, List.nil_append, leadingSpaces_renderContent]
    omega

/-- Claim C4: deriving a child printer yields the child object, the parent
depth plus the parent increment, the same increment and a copy of the parent
flag list; a flag enabled on the parent afterwards is not present in the
already-derived child. -/
theorem next_indent_derivation (p : PrettyBer) (o : BerObject)
    (f : PrettyPrinterFlag) :
    (p.next_indent o).obj = o ∧
    (p.next_indent o).indent = p.indent + p.inc ∧
    (p.next_indent o).inc = p.inc ∧
    (p.next_indent o).flags = p.flags ∧
    (f ∉ p.flags → f ∉ (p.next_indent o).flags ∧ f ∈ (p.set_flag f).flags) := by
  refine ⟨rfl, rfl, rfl, rfl, fun hf => ⟨hf, ?_⟩⟩
  simp [PrettyBer.set_flag, hf]

/-- Witness for claim C4: deriving before enabling ShowHeader leaves the
child without the flag, while the enabled parent carries it. -/
theorem next_indent_derivation_witness :
    PrettyPrinterFlag.ShowHeader ∉ ((objC5.as_pretty 1 2).next_indent objC5).flags ∧
    PrettyPrinterFlag.ShowHeader ∈ ((objC5.as_pretty 1 2).set_flag .ShowHeader).flags :=
  (next_indent_derivation (objC5.as_pretty 1 2) objC5 .ShowHeader).2.2.2.2 (by decide)

/-- Counterexample to claim C5 as stated: with ShowHeader enabled, not every
line of the rendered output carries the header pattern after its indentation —
the closing bracket line of a Set node consists of indentation and a bracket
only. -/
theorem showHeader_not_all_lines :
    ¬ (∀ ln ∈ linesOf (render extEx ppC5).data,
        ∃ k r, ln = List.replicate k ' ' ++ ('[' :: r)) := by
  intro hall
  have hmem : [']'] ∈ linesOf (render extEx ppC5).data := by decide
  obtain ⟨k, r, hk⟩ := hall [']'] hmem
  cases k with
  | zero => simp at hk
  | succ n => simp [List.replicate_succ] at hk

/-- Claim C5 (amended): with ShowHeader enabled, the first line emitted by a
printer — and hence by every recursively derived child printer, since the
flag list is copied on derivation — is prefixed, after its indentation, with
the header pattern; the closing bracket and brace lines carry indentation
only. -/
theorem showHeader_first_line_of_each_renderer (ext : ExternalFmt)
    (p : PrettyBer) (hm : PrettyPrinterFlag.ShowHeader ∈ p.flags) :
    ∃ r, render ext p =
      (if p.indent > 0 then padSpace p.indent else "") ++
      (headerStr p.obj.header ++ r) := by
  obtain ⟨obj, ind, inc, fl⟩ := p
  obtain ⟨h, c⟩ := obj
  refine ⟨renderContent ext ind inc fl h c, ?_⟩
  show renderBer ext ind inc fl (.mk h c) = _
  rw [renderBer_mk, if_pos hm, strAppend_assoc]
  rfl

/-- Witness for the amended claim C5 at the concrete flagged printer. -/
theorem showHeader_first_line_witness :
    ∃ r, render extEx ppC5 =
      (if ppC5.indent > 0 then padSpace ppC5.indent else "") ++
      (headerStr ppC5.obj.header ++ r) :=
  showHeader_first_line_of_each_renderer extEx ppC5 (by decide)

/-- Claim C6: a Tagged node renders as the ContextSpecific opening line, the
full recursive rendering of the derived child printer for the inner node,
then — exactly when the depth of the tagged node itself is positive — padding
at that depth, then the closing brace and a line break. -/
theorem tagged_render_shape (ext : ExternalFmt) (d i : Nat)
    (fl : List PrettyPrinterFlag) (h : Header) (cls : String) (tag : Nat)
    (inner : BerObject) :
    render ext ⟨.mk h (.Tagged cls tag inner), d, i, fl⟩ =
      (if d > 0 then padSpace d else "") ++
      (if PrettyPrinterFlag.ShowHeader ∈ fl then headerStr h else "") ++
      ("ContextSpecific [" ++ cls ++ " " ++ toString tag ++ "] \x7b" ++ "\n" ++
        render ext (PrettyBer.next_indent ⟨.mk h (.Tagged cls tag inner), d, i, fl⟩ inner) ++
        (if d > 0 then padSpace d else "") ++ "\x7d" ++ "\n") := rfl

/-- Claim C7: a present Optional renders as OPTION followed by the default
(non-pretty) boundary Debug form of the inner node — a function of the inner
node only, independent of depth, increment and flags — and an absent Optional
renders as the literal NONE. -/
theorem optional_render_bypass (ext : ExternalFmt) (d i : Nat)
    (fl : List PrettyPrinterFlag) (h : Header) (inner : BerObject) :
    render ext ⟨.mk h (.Optional (.some inner)), d, i, fl⟩ =
      (if d > 0 then padSpace d else "") ++
      (if PrettyPrinterFlag.ShowHeader ∈ fl then headerStr h else "") ++
      ("OPTION " ++ ext.debugBer inner ++ "\n") ∧
    render ext ⟨.mk h (.Optional .none), d, i, fl⟩ =
      (if d > 0 then padSpace d else "") ++
      (if PrettyPrinterFlag.ShowHeader ∈ fl then headerStr h else "") ++
      ("NONE" ++ "\n") :=
  ⟨rfl, rfl⟩

/-- Claim C8: the flag list of every reachable printer is duplicate-free —
construction yields the empty list, enabling an already-present flag is a
no-op that cannot fail, enabling never removes flags, and derivation copies
the flag list verbatim. -/
theorem flag_set_invariants :
    (∀ (obj : BerObject) (ind incr : Nat), (obj.as_pretty ind incr).flags = []) ∧
    (∀ (p : PrettyBer) (f : PrettyPrinterFlag), f ∈ p.flags → p.set_flag f = p) ∧
    (∀ (p : PrettyBer) (f g : PrettyPrinterFlag), g ∈ p.flags → g ∈ (p.set_flag f).flags) ∧
    (∀ (p : PrettyBer) (o : BerObject), (p.next_indent o).flags = p.flags) ∧
    (∀ (p : PrettyBer), Reachable p → p.flags.Nodup) := by
  refine ⟨fun _ _ _ => rfl, fun p f hf => by simp [PrettyBer.set_flag, hf],
    fun p f g hg => ?_, fun _ _ => rfl, fun p hp => ?_⟩
  · by_cases hm : f ∈ p.flags <;> simp [PrettyBer.set_flag, hm, hg]
  · induction hp with
    | of_as_pretty obj ind incr => exact List.nodup_nil
    | of_set_flag q f hq ih =>
      by_cases hm : f ∈ q.flags
      · simpa [PrettyBer.set_flag, hm] using ih
      · simp [PrettyBer.set_flag, hm, List.nodup_append, ih]
    | of_next_indent q o hq ih => exact ih

/-- Witness for claim C8: enabling a flag twice on a concrete printer is a
no-op the second time. -/
theorem flag_set_invariants_witness :
    ppC5.set_flag .ShowHeader = ppC5 :=
  flag_set_invariants.2.1 ppC5 .ShowHeader (by decide)

/-- Claim C9: rendering is deterministic — two renderings of the same printer
value with the same external boundary agree. -/
theorem render_deterministic (ext : ExternalFmt) (p : PrettyBer)
    (s1 s2 : String) (h1 : s1 = render ext p) (h2 : s2 = render ext p) :
    s1 = s2 :=
  h1.trans h2.symm

/-- Witness for claim C9: the rendering of the concrete flagged Set printer,
computed twice, both times this exact string. -/
theorem render_deterministic_witness :
    render extEx ppC5 = "[c:Universal, s:true, t:17] Set[\n]\n" :=
  render_deterministic extEx ppC5 _ _ rfl (by decide)

/-- Claim C10: every rendered output is non-empty and its last character is a
line break, no matter the content variant. -/
theorem output_ends_with_newline (ext : ExternalFmt) (p : PrettyBer) :
    (render ext p).data ≠ [] ∧
    (render ext p).data.getLast? = Option.some '\n' := by
  obtain ⟨obj, ind, inc, fl⟩ := p
  obtain ⟨h, c⟩ := obj
  obtain ⟨s, hs⟩ := renderContent_endsWithNewline ext ind inc fl h c
  have hdata : (render ext ⟨.mk h c, ind, inc, fl⟩).data =
      ((if ind > 0 then padSpace ind else "") ++
        (if PrettyPrinterFlag.ShowHeader ∈ fl then headerStr h else "") ++ s).data
        ++ ['\n'] := by
    show (renderBer ext ind inc fl (.mk h c)).data = _
    rw [renderBer_mk, hs]
    have hnl : ("\n" : String).data = ['\n'] := rfl
    simp [String.data_append, hnl]
  refine ⟨?_, ?_⟩
  · rw [hdata]
    simp
  · rw [hdata]
    simp
